import Mathlib

/-!
Verification of the PalletFlow warehouse-inventory backend.

The definitions below are a shallow embedding of the server code:
the Drizzle table schemas and zod insert schemas (shared schema module),
the `DatabaseStorage` repository class, and the Express route handlers in
`registerRoutes`.  The database is modelled as explicit lists of rows, a
handler as a function from database (and session) state and request body
to the new state and a response value.  Machine integers of the `integer`
columns are modelled as `Int` (Postgres raises on overflow rather than
wrapping, and no claim involves values near the bounds); the `serial`
primary keys as `Nat` counters per table.
-/

namespace PalletFlow

/-- `user_role` enum: `["administrador", "armazenista"]`. -/
inductive Role where
  | administrador
  | armazenista
deriving DecidableEq, Repr

/-- `category` enum: `["alta_rotacao", "baixa_rotacao"]`. -/
inductive Category where
  | alta_rotacao
  | baixa_rotacao
deriving DecidableEq, Repr

/-- The `type` column of `activity_log` is free text, but the code only ever
writes the strings "entry" and "exit" and compares against them. -/
inductive ActivityType where
  | entry
  | exit
deriving DecidableEq, Repr

/-- A row of the `users` table (timestamps omitted: no claim reads them). -/
structure User where
  id : Nat
  name : String
  nickname : String
  username : String
  password : String
  role : Role
  isFirstLogin : Bool
deriving DecidableEq, Repr

/-- A row of the `products` table. -/
structure Product where
  id : Nat
  code : String
  description : String
  quantityBases : Int
  unitsPerBase : Int
  category : Category
deriving DecidableEq, Repr

/-- A row of the `picos` table.  `towerLocation` is a `varchar(2)` column. -/
structure Pico where
  id : Nat
  productId : Nat
  bases : Int
  looseUnits : Int
  totalUnits : Int
  towerLocation : String
deriving DecidableEq, Repr

/-- A row of the `paletizado_stock` table. -/
structure PaletizadoStock where
  id : Nat
  productId : Nat
  quantity : Int
deriving DecidableEq, Repr

/-- A row of the `activity_log` table. -/
structure ActivityLog where
  id : Nat
  type : ActivityType
  productCode : String
  productDescription : String
  quantity : Int
  category : Category
deriving DecidableEq, Repr

/-- The database state: one list of rows per table plus one `serial`
counter per table.  Rows are kept in insertion order for `users`,
`products`, `picos` and `paletizadoStock`; `activityLog` is kept newest
first (every read of it orders by `created_at desc`). -/
structure DB where
  users : List User
  products : List Product
  picos : List Pico
  paletizadoStock : List PaletizadoStock
  activityLog : List ActivityLog
  nextUserId : Nat
  nextProductId : Nat
  nextPicoId : Nat
  nextStockId : Nat
  nextLogId : Nat
deriving DecidableEq, Repr

/-! ### External bcrypt library (modelled)

`bcrypt.hash`/`bcrypt.compare` are an external dependency, not repository
code.  They are modelled by injective tagging, which captures the library
contract the handlers rely on: `compare p (hash p)` succeeds and a
comparison against the hash of a different plaintext fails. -/

/-- Model of `bcrypt.hash(password, 10)`. -/
def bcryptHash (password : String) : String := "bcrypt$10$" ++ password

/-- Model of `bcrypt.compare(password, storedHash)`. -/
def bcryptCompare (password storedHash : String) : Bool :=
  storedHash == bcryptHash password

/-! ### Insert payloads (the zod insert-schema types) -/

/-- `InsertUser` (insert schema of `users`, id/timestamps omitted). -/
structure InsertUser where
  name : String
  nickname : String
  username : String
  password : String
  role : Role
  isFirstLogin : Bool
deriving DecidableEq, Repr

/-- `InsertPico` (insert schema of `picos`, id/timestamps omitted). -/
structure InsertPico where
  productId : Nat
  bases : Int
  looseUnits : Int
  totalUnits : Int
  towerLocation : String
deriving DecidableEq, Repr

/-- `InsertPaletizadoStock`. -/
structure InsertPaletizadoStock where
  productId : Nat
  quantity : Int
deriving DecidableEq, Repr

/-- `InsertActivityLog`. -/
structure InsertActivityLog where
  type : ActivityType
  productCode : String
  productDescription : String
  quantity : Int
  category : Category
deriving DecidableEq, Repr

/-- The regex of `insertPicoSchema.extend`: towerLocation must be exactly
two ASCII digits (JS `\d` without the unicode flag is `[0-9]`). -/
def isTwoDigits (s : String) : Bool :=
  s.length == 2 && s.toList.all Char.isDigit

/-- `insertPicoSchema.parse`: the only refinement beyond the field types is
the two-digit regex on `towerLocation`; `parse` throws (here: `none`) when
it fails. -/
def insertPicoSchemaParse (p : InsertPico) : Option InsertPico :=
  if isTwoDigits p.towerLocation then some p else none

/-! ### Storage layer (`DatabaseStorage`) -/

/-- `getUser`: first `users` row with the given id. -/
def getUser (db : DB) (id : Nat) : Option User :=
  db.users.find? (fun u => u.id == id)

/-- `getUserByUsername`. -/
def getUserByUsername (db : DB) (username : String) : Option User :=
  db.users.find? (fun u => u.username == username)

/-- `createUser`: inserts a row.  `users.username` carries a database
`unique` constraint, so the insert raises (here: `none`) when the username
is already taken. -/
def createUser (db : DB) (u : InsertUser) : Option (DB × User) :=
  if db.users.any (fun w => w.username == u.username) then none
  else
    let user : User :=
      { id := db.nextUserId, name := u.name, nickname := u.nickname,
        username := u.username, password := u.password, role := u.role,
        isFirstLogin := u.isFirstLogin }
    some ({ db with users := db.users ++ [user], nextUserId := db.nextUserId + 1 }, user)

/-- Partial update payload for `updateUser` as built by the PUT handler
(absent fields are not set). -/
structure UserUpdates where
  name : Option String := none
  nickname : Option String := none
  username : Option String := none
  password : Option String := none
  role : Option Role := none
  isFirstLogin : Option Bool := none
deriving DecidableEq, Repr

/-- Applying a partial update to a `users` row (`set({...updates})`). -/
def applyUserUpdates (u : User) (up : UserUpdates) : User :=
  { u with
    name := up.name.getD u.name, nickname := up.nickname.getD u.nickname,
    username := up.username.getD u.username, password := up.password.getD u.password,
    role := up.role.getD u.role, isFirstLogin := up.isFirstLogin.getD u.isFirstLogin }

/-- `updateUser`: updates every row matching the id and returns the updated
row (`undefined`, here `none`, when no row matched).  The `unique`
constraint on username is not modelled here: no claim depends on a
username-colliding update. -/
def updateUser (db : DB) (id : Nat) (up : UserUpdates) : DB × Option User :=
  ({ db with users := db.users.map (fun u => if u.id == id then applyUserUpdates u up else u) },
   (db.users.find? (fun u => u.id == id)).map (fun u => applyUserUpdates u up))

/-- `getAllUsers`: all rows ordered by name. -/
def getAllUsers (db : DB) : List User :=
  db.users.mergeSort (fun a b => a.name ≤ b.name)

/-- `getProductByCode`. -/
def getProductByCode (db : DB) (code : String) : Option Product :=
  db.products.find? (fun p => p.code == code)

/-- `picos` row joined with its product (`PicoWithProduct`; the source type
spreads the pico fields and adds a `product` field). -/
structure PicoWithProduct where
  pico : Pico
  product : Product
deriving DecidableEq, Repr

/-- `paletizado_stock` row joined with its product. -/
structure PaletizadoStockWithProduct where
  stock : PaletizadoStock
  product : Product
deriving DecidableEq, Repr

/-- `getPico`: left-joins `picos` with `products` on `productId` and
returns `undefined` (here `none`) when there is no such pico row or when
the joined product is null. -/
def getPico (db : DB) (id : Nat) : Option PicoWithProduct :=
  match db.picos.find? (fun p => p.id == id) with
  | none => none
  | some p =>
    match db.products.find? (fun pr => pr.id == p.productId) with
    | none => none
    | some pr => some ⟨p, pr⟩

/-- Storing a string into a `varchar(n)` column: a value of at most `n`
characters is kept as is; a longer value is silently truncated to `n`
characters when every excess character is a space, and raises (here:
`none`) otherwise — Postgres's documented behavior for character types. -/
def varcharStore (n : Nat) (s : String) : Option String :=
  if s.length ≤ n then some s
  else if (s.toList.drop n).all (fun c => c == ' ') then some (s.take n)
  else none

/-- `createPico`: inserts a row.  The `tower_location` column is
`varchar(2)`: the stored value passes through `varcharStore 2`.  (Through
POST the schema parse has already enforced two digits, so neither the
truncation nor the raise is reachable there.) -/
def createPico (db : DB) (p : InsertPico) : Option (DB × Pico) :=
  match varcharStore 2 p.towerLocation with
  | none => none
  | some t =>
    let pico : Pico :=
      { id := db.nextPicoId, productId := p.productId, bases := p.bases,
        looseUnits := p.looseUnits, totalUnits := p.totalUnits,
        towerLocation := t }
    some ({ db with picos := db.picos ++ [pico], nextPicoId := db.nextPicoId + 1 }, pico)

/-- Partial update payload for `updatePico` exactly as the PUT handler
builds it: bases, looseUnits and totalUnits always set, towerLocation set
only when the request value was truthy. -/
structure PicoUpdates where
  bases : Int
  looseUnits : Int
  totalUnits : Int
  towerLocation : Option String
deriving DecidableEq, Repr

/-- Applying a partial update to a `picos` row. -/
def applyPicoUpdates (p : Pico) (u : PicoUpdates) : Pico :=
  { p with bases := u.bases, looseUnits := u.looseUnits,
           totalUnits := u.totalUnits,
           towerLocation := u.towerLocation.getD p.towerLocation }

/-- The row update performed by `updatePico` once the value actually
stored into the `tower_location` column (if any) is known: every row
matching the id is updated, and the updated row is returned (`none`
inside when no row matched). -/
def updatePicoApply (db : DB) (id : Nat) (u : PicoUpdates) : DB × Option Pico :=
  ({ db with picos := db.picos.map (fun p => if p.id == id then applyPicoUpdates p u else p) },
   (db.picos.find? (fun p => p.id == id)).map (fun p => applyPicoUpdates p u))

/-- `updatePico`: when the update carries a towerLocation it passes
through the `varchar(2)` column — kept when at most two characters,
truncated when the excess is all spaces, raising (the outer `none`)
otherwise; then every row matching the id is updated. -/
def updatePico (db : DB) (id : Nat) (u : PicoUpdates) : Option (DB × Option Pico) :=
  match u.towerLocation with
  | none => some (updatePicoApply db id u)
  | some t =>
    match varcharStore 2 t with
    | none => none
    | some t2 => some (updatePicoApply db id { u with towerLocation := some t2 })

/-- `deletePico`. -/
def deletePico (db : DB) (id : Nat) : DB :=
  { db with picos := db.picos.filter (fun p => p.id != id) }

/-- `getPaletizadoStockByProductId`: first `paletizado_stock` row with the
given productId, left-joined with its product; `none` when the row is
absent or its joined product is null. -/
def getPaletizadoStockByProductId (db : DB) (productId : Nat) :
    Option PaletizadoStockWithProduct :=
  match db.paletizadoStock.find? (fun s => s.productId == productId) with
  | none => none
  | some s =>
    match db.products.find? (fun pr => pr.id == s.productId) with
    | none => none
    | some pr => some ⟨s, pr⟩

/-- `createPaletizadoStock`: plain insert — the table has no unique
constraint on `productId`. -/
def createPaletizadoStock (db : DB) (s : InsertPaletizadoStock) :
    DB × PaletizadoStock :=
  let stock : PaletizadoStock :=
    { id := db.nextStockId, productId := s.productId, quantity := s.quantity }
  ({ db with paletizadoStock := db.paletizadoStock ++ [stock],
             nextStockId := db.nextStockId + 1 }, stock)

/-- `updatePaletizadoStock` with a `{quantity}` update, as both call sites
build it. -/
def updatePaletizadoStock (db : DB) (id : Nat) (quantity : Int) :
    DB × Option PaletizadoStock :=
  ({ db with paletizadoStock :=
      db.paletizadoStock.map (fun s => if s.id == id then { s with quantity := quantity } else s) },
   (db.paletizadoStock.find? (fun s => s.id == id)).map (fun s => { s with quantity := quantity }))

/-- `createActivityLog`: inserts a row; the list is kept newest first. -/
def createActivityLog (db : DB) (a : InsertActivityLog) : DB × ActivityLog :=
  let log : ActivityLog :=
    { id := db.nextLogId, type := a.type, productCode := a.productCode,
      productDescription := a.productDescription, quantity := a.quantity,
      category := a.category }
  ({ db with activityLog := log :: db.activityLog, nextLogId := db.nextLogId + 1 }, log)

/-- The record returned by `getDashboardStats`. -/
structure DashboardStats where
  totalPicos : Nat
  totalPaletizados : Nat
  altaRotacao : Nat
  baixaRotacao : Nat
  recentEntries : List ActivityLog
  recentExits : List ActivityLog
deriving DecidableEq, Repr

/-- `getDashboardStats`: row counts of `picos` and `paletizado_stock`,
product counts per category, and the five most recent entry and exit log
rows. -/
def getDashboardStats (db : DB) : DashboardStats :=
  { totalPicos := db.picos.length
    totalPaletizados := db.paletizadoStock.length
    altaRotacao := (db.products.filter (fun p => p.category == Category.alta_rotacao)).length
    baixaRotacao := (db.products.filter (fun p => p.category == Category.baixa_rotacao)).length
    recentEntries := (db.activityLog.filter (fun a => a.type == ActivityType.entry)).take 5
    recentExits := (db.activityLog.filter (fun a => a.type == ActivityType.exit)).take 5 }

/-! ### JSON response shaping

`res.json` serializes a JS object; the handlers build user payloads as
`{...user, password: undefined}` and `JSON.stringify` omits properties
whose value is `undefined`.  User payloads are flat, so a JS object is
modelled as a list of key/value pairs with flat values. -/

/-- A flat JSON/JS value as it appears in a user payload. -/
inductive Json where
  | str (s : String)
  | num (n : Int)
  | bool (b : Bool)
  | null
  | undef
deriving DecidableEq, Repr

/-- Serialization of the role enum value. -/
def roleToJson (r : Role) : Json :=
  match r with
  | Role.administrador => Json.str "administrador"
  | Role.armazenista => Json.str "armazenista"

/-- The property list of a `User` row as a JS object (what `{...user}`
spreads), password included as stored. -/
def userObj (u : User) : List (String × Json) :=
  [("id", Json.num u.id), ("name", Json.str u.name),
   ("nickname", Json.str u.nickname), ("username", Json.str u.username),
   ("password", Json.str u.password), ("role", roleToJson u.role),
   ("isFirstLogin", Json.bool u.isFirstLogin)]

/-- Overriding one property of a JS object in place, as the spread
`{...obj, key: v}` does for a key already present. -/
def objSet (obj : List (String × Json)) (key : String) (v : Json) :
    List (String × Json) :=
  obj.map (fun kv => if kv.1 == key then (kv.1, v) else kv)

/-- `JSON.stringify` on an object: properties with value `undefined` are
omitted. -/
def jsonStringifyObj (obj : List (String × Json)) : List (String × Json) :=
  obj.filter (fun kv => kv.2 != Json.undef)

/-- The serialized form of `{...user, password: undefined}` as every
user-returning handler builds it. -/
def serializeUser (u : User) : List (String × Json) :=
  jsonStringifyObj (objSet (userObj u) "password" Json.undef)

/-! ### HTTP layer: session and route handlers (`registerRoutes`) -/

/-- The express-session data the handlers use: `userId` and `user`. -/
structure Session where
  userId : Option Nat
  user : Option User
deriving DecidableEq, Repr

/-- A fresh session, before any login. -/
def emptySession : Session := { userId := none, user := none }

/-- Body of `POST /api/auth/login`. -/
structure LoginBody where
  username : String
  password : String
deriving DecidableEq, Repr

/-- `loginSchema.parse`: both fields must be non-empty strings. -/
def loginSchemaParse (b : LoginBody) : Option LoginBody :=
  if 1 ≤ b.username.length && 1 ≤ b.password.length then some b else none

/-- Response of `POST /api/auth/login`. -/
inductive LoginResp where
  | ok (user : List (String × Json)) (isFirstLogin : Bool)
  | invalidCredentials
  | invalidData
deriving DecidableEq, Repr

/-- `POST /api/auth/login`: parse, look up by username, compare the bcrypt
hash; 401 leaves the session untouched, success stores `userId` and
`user` in the session. -/
def postLogin (db : DB) (sess : Session) (body : LoginBody) :
    Session × LoginResp :=
  match loginSchemaParse body with
  | none => (sess, LoginResp.invalidData)
  | some b =>
    match getUserByUsername db b.username with
    | none => (sess, LoginResp.invalidCredentials)
    | some user =>
      if bcryptCompare b.password user.password then
        ({ userId := some user.id, user := some user },
         LoginResp.ok (serializeUser user) user.isFirstLogin)
      else (sess, LoginResp.invalidCredentials)

/-- Response of `GET /api/auth/user`. -/
inductive AuthUserResp where
  | ok (user : List (String × Json))
  | unauthorized
  | userNotFound
deriving DecidableEq, Repr

/-- `GET /api/auth/user`: `requireAuth` (401 when the session has no
userId), then the stored user without its password. -/
def getAuthUser (db : DB) (sess : Session) : AuthUserResp :=
  match sess.userId with
  | none => AuthUserResp.unauthorized
  | some uid =>
    match getUser db uid with
    | none => AuthUserResp.userNotFound
    | some user => AuthUserResp.ok (serializeUser user)

/-- Response of `GET /api/users`. -/
inductive UsersListResp where
  | ok (users : List (List (String × Json)))
  | unauthorized
  | forbidden
  | failed
deriving DecidableEq, Repr

/-- `requireAdmin` as a predicate on the session: passes when the session
user is present with role administrador. -/
def sessionIsAdmin (sess : Session) : Bool :=
  match sess.user with
  | some u => u.role == Role.administrador
  | none => false

/-- `GET /api/users`: `requireAuth`, `requireAdmin`, then all users each
without its password. -/
def getUsersHandler (db : DB) (sess : Session) : UsersListResp :=
  match sess.userId with
  | none => UsersListResp.unauthorized
  | some _ =>
    if sessionIsAdmin sess then
      UsersListResp.ok ((getAllUsers db).map serializeUser)
    else UsersListResp.forbidden

/-- Response of `POST /api/users` and `PUT /api/users/:id`. -/
inductive UserWriteResp where
  | ok (user : List (String × Json))
  | unauthorized
  | forbidden
  | invalidData
deriving DecidableEq, Repr

/-- `POST /api/users`: auth and admin checks, parse (the insert schema adds
no refinement beyond the field types), hash the password, insert; the
catch of a failed insert answers 400. -/
def postUsersHandler (db : DB) (sess : Session) (body : InsertUser) :
    DB × UserWriteResp :=
  match sess.userId with
  | none => (db, UserWriteResp.unauthorized)
  | some _ =>
    if sessionIsAdmin sess then
      let hashed := bcryptHash body.password
      match createUser db { body with password := hashed } with
      | none => (db, UserWriteResp.invalidData)
      | some (db1, user) => (db1, UserWriteResp.ok (serializeUser user))
    else (db, UserWriteResp.forbidden)

/-- `PUT /api/users/:id`: auth and admin checks; a truthy `password` in the
body is replaced by its hash; the row is updated and answered without its
password.  When no row matches the id the source spreads `undefined`,
which serializes to an empty object. -/
def putUsersHandler (db : DB) (sess : Session) (id : Nat) (body : UserUpdates) :
    DB × UserWriteResp :=
  match sess.userId with
  | none => (db, UserWriteResp.unauthorized)
  | some _ =>
    if sessionIsAdmin sess then
      let updates :=
        match body.password with
        | some pw => if pw.isEmpty then body else { body with password := some (bcryptHash pw) }
        | none => body
      match (updateUser db id updates).2 with
      | some user =>
        ((updateUser db id updates).1, UserWriteResp.ok (serializeUser user))
      | none =>
        ((updateUser db id updates).1,
         UserWriteResp.ok (jsonStringifyObj [("password", Json.undef)]))
    else (db, UserWriteResp.forbidden)

/-- Body of `POST /api/picos`. -/
structure PicoPostBody where
  productCode : String
  bases : Int
  looseUnits : Int
  towerLocation : String
deriving DecidableEq, Repr

/-- Response of `POST /api/picos`. -/
inductive PicoPostResp where
  | ok (pico : Pico)
  | productNotFound
  | invalidData
deriving DecidableEq, Repr

/-- `POST /api/picos`, parametrized by whether the
`storage.createActivityLog` insert raises (`logFails = true` models a
database failure of that second, independent write).  The handler resolves
the product by code (404 when absent), computes
`totalUnits = bases * unitsPerBase + looseUnits`, parses the insert schema
(400 on failure), inserts the pico, then appends the "entry" activity-log
row; any raise after the pico insert is caught and answered 400 with the
pico row already persisted. -/
def postPicosRun (logFails : Bool) (db : DB) (body : PicoPostBody) :
    DB × PicoPostResp :=
  match getProductByCode db body.productCode with
  | none => (db, PicoPostResp.productNotFound)
  | some product =>
    let totalUnits := body.bases * product.unitsPerBase + body.looseUnits
    match insertPicoSchemaParse
        { productId := product.id, bases := body.bases,
          looseUnits := body.looseUnits, totalUnits := totalUnits,
          towerLocation := body.towerLocation } with
    | none => (db, PicoPostResp.invalidData)
    | some picoData =>
      match createPico db picoData with
      | none => (db, PicoPostResp.invalidData)
      | some (db1, pico) =>
        if logFails then (db1, PicoPostResp.invalidData)
        else
          ((createActivityLog db1
            { type := ActivityType.entry, productCode := product.code,
              productDescription := product.description,
              quantity := totalUnits, category := product.category }).1,
           PicoPostResp.ok pico)

/-- `POST /api/picos` in the normal execution (the activity-log insert
succeeds). -/
def postPicos (db : DB) (body : PicoPostBody) : DB × PicoPostResp :=
  postPicosRun false db body

/-- Body of `PUT /api/picos/:id`; `towerLocation` is `none` when the field
is absent from the request body. -/
structure PicoPutBody where
  bases : Int
  looseUnits : Int
  towerLocation : Option String
deriving DecidableEq, Repr

/-- Response of `PUT /api/picos/:id`. -/
inductive PicoPutResp where
  | ok (pico : Option Pico)
  | picoNotFound
  | updateFailed
deriving DecidableEq, Repr

/-- `PUT /api/picos/:id`: loads the pico with its product (404 when
absent), recomputes `totalUnits` from the request's bases and looseUnits
and the product's unitsPerBase, and updates the row; `towerLocation` is
included in the update only when truthy (a non-empty string).  No schema
validation is applied; a raise from the update (the `varchar(2)` column)
is caught and answered 400. -/
def putPicos (db : DB) (id : Nat) (body : PicoPutBody) : DB × PicoPutResp :=
  match getPico db id with
  | none => (db, PicoPutResp.picoNotFound)
  | some existingPico =>
    let totalUnits := body.bases * existingPico.product.unitsPerBase + body.looseUnits
    let updates : PicoUpdates :=
      { bases := body.bases, looseUnits := body.looseUnits,
        totalUnits := totalUnits,
        towerLocation :=
          match body.towerLocation with
          | some t => if t.isEmpty then none else some t
          | none => none }
    match updatePico db id updates with
    | none => (db, PicoPutResp.updateFailed)
    | some (db1, pico) => (db1, PicoPutResp.ok pico)

/-- Response of `DELETE /api/picos/:id`. -/
inductive PicoDeleteResp where
  | ok
  | picoNotFound
deriving DecidableEq, Repr

/-- `DELETE /api/picos/:id`: loads the pico with its product (404 when
absent), deletes the row, then appends an "exit" activity-log row from the
values captured before the delete. -/
def deletePicos (db : DB) (id : Nat) : DB × PicoDeleteResp :=
  match getPico db id with
  | none => (db, PicoDeleteResp.picoNotFound)
  | some pico =>
    let db1 := deletePico db id
    ((createActivityLog db1
      { type := ActivityType.exit, productCode := pico.product.code,
        productDescription := pico.product.description,
        quantity := pico.pico.totalUnits, category := pico.product.category }).1,
     PicoDeleteResp.ok)

/-- Body of `POST /api/paletizado-stock`. -/
structure StockPostBody where
  productCode : String
  quantity : Int
deriving DecidableEq, Repr

/-- Response of `POST /api/paletizado-stock`. -/
inductive StockPostResp where
  | ok (stock : Option PaletizadoStock)
  | productNotFound
  | invalidData
deriving DecidableEq, Repr

/-- `POST /api/paletizado-stock`, parametrized like `postPicosRun` by
whether the activity-log insert raises.  Resolves the product by code (404
when absent); when a stock row for the product already exists its quantity
is incremented by the request quantity, otherwise a new row is inserted;
then the "entry" activity-log row is appended. -/
def postPaletizadoStockRun (logFails : Bool) (db : DB) (body : StockPostBody) :
    DB × StockPostResp :=
  match getProductByCode db body.productCode with
  | none => (db, StockPostResp.productNotFound)
  | some product =>
    match getPaletizadoStockByProductId db product.id with
    | some existingStock =>
      let r :=
        updatePaletizadoStock db existingStock.stock.id
          (existingStock.stock.quantity + body.quantity)
      if logFails then (r.1, StockPostResp.invalidData)
      else
        ((createActivityLog r.1
          { type := ActivityType.entry, productCode := product.code,
            productDescription := product.description,
            quantity := body.quantity, category := product.category }).1,
         StockPostResp.ok r.2)
    | none =>
      let r :=
        createPaletizadoStock db { productId := product.id, quantity := body.quantity }
      if logFails then (r.1, StockPostResp.invalidData)
      else
        ((createActivityLog r.1
          { type := ActivityType.entry, productCode := product.code,
            productDescription := product.description,
            quantity := body.quantity, category := product.category }).1,
         StockPostResp.ok (some r.2))

/-- `POST /api/paletizado-stock` in the normal execution. -/
def postPaletizadoStock (db : DB) (body : StockPostBody) : DB × StockPostResp :=
  postPaletizadoStockRun false db body

/-- The insert payload of the default admin user built at startup. -/
def defaultAdminInsert : InsertUser :=
  { name := "Administrador", nickname := "Admin", username := "admin",
    password := bcryptHash "admin", role := Role.administrador,
    isFirstLogin := true }

/-- `initializeDefaultUser`, run once at startup: when no user with
username "admin" exists, one is created from `defaultAdminInsert`;
otherwise nothing happens.  (The `none` branch of `createUser` is
unreachable here, since the lookup just failed.) -/
def initializeDefaultUser (db : DB) : DB :=
  match getUserByUsername db "admin" with
  | some _ => db
  | none =>
    match createUser db defaultAdminInsert with
    | some (db1, _) => db1
    | none => db

/-! ### Concrete fixtures used by witnesses and counterexamples -/

/-- A sample product. -/
def demoProduct : Product :=
  { id := 1, code := "P1", description := "Widget", quantityBases := 10,
    unitsPerBase := 5, category := Category.alta_rotacao }

/-- The default admin row as created at startup with fresh id 1. -/
def demoAdmin : User :=
  { id := 1, name := "Administrador", nickname := "Admin", username := "admin",
    password := bcryptHash "admin", role := Role.administrador,
    isFirstLogin := true }

/-- An empty database. -/
def emptyDb : DB :=
  { users := [], products := [], picos := [], paletizadoStock := [],
    activityLog := [], nextUserId := 1, nextProductId := 1, nextPicoId := 1,
    nextStockId := 1, nextLogId := 1 }

/-- A database holding the admin user and one product. -/
def demoDb : DB :=
  { emptyDb with users := [demoAdmin], products := [demoProduct],
                 nextUserId := 2, nextProductId := 2 }

/-- A sample pico row of `demoProduct`. -/
def demoPico : Pico :=
  { id := 1, productId := 1, bases := 1, looseUnits := 2, totalUnits := 7,
    towerLocation := "07" }

/-- `demoDb` with `demoPico` stored. -/
def demoDbWithPico : DB := { demoDb with picos := [demoPico], nextPicoId := 2 }

/-! ### Theorems -/

/-- Helper: the two category filters of a product list partition it. -/
theorem length_filter_category (l : List Product) :
    (l.filter (fun p => p.category == Category.alta_rotacao)).length +
      (l.filter (fun p => p.category == Category.baixa_rotacao)).length
      = l.length := by
  induction l with
  | nil => rfl
  | cons p t ih =>
    cases h : p.category <;> simp [List.filter_cons, h] <;> omega

/-- C6: for every database state, the dashboard's `altaRotacao` count plus
its `baixaRotacao` count equals the number of product rows, since every
product's category is one of the two enum values. -/
theorem dashboard_category_counts_total (db : DB) :
    (getDashboardStats db).altaRotacao + (getDashboardStats db).baixaRotacao
      = db.products.length := by
  simpa [getDashboardStats] using length_filter_category db.products

/-- Helper: what a successful `createPico` produces. -/
theorem createPico_spec {db : DB} {p : InsertPico} {db' : DB} {pico : Pico}
    (h : createPico db p = some (db', pico)) :
    pico.totalUnits = p.totalUnits ∧ pico ∈ db'.picos := by
  unfold createPico at h
  split at h
  · exact absurd h (by simp)
  · simp only [Option.some.injEq, Prod.mk.injEq] at h
    obtain ⟨hdb, hpico⟩ := h
    subst hdb hpico
    simp

/-- Helper: a successful `updatePico` is `updatePicoApply` for an update
payload that agrees on bases, looseUnits and totalUnits (only the stored
towerLocation may differ, through the `varchar(2)` column), and that is
the original payload itself when no towerLocation was supplied. -/
theorem updatePico_some {db : DB} {id : Nat} {u : PicoUpdates}
    {r : DB × Option Pico} (h : updatePico db id u = some r) :
    ∃ u2 : PicoUpdates, u2.bases = u.bases ∧ u2.looseUnits = u.looseUnits ∧
      u2.totalUnits = u.totalUnits ∧
      (u.towerLocation = none → u2 = u) ∧
      r = updatePicoApply db id u2 := by
  unfold updatePico at h
  split at h
  · rename_i htl
    refine ⟨u, rfl, rfl, rfl, fun _ => rfl, ?_⟩
    simpa using h.symm
  · rename_i t htl
    split at h
    · exact absurd h (by simp)
    · rename_i t2 ht2
      refine ⟨{ u with towerLocation := some t2 }, rfl, rfl, rfl, ?_, ?_⟩
      · intro hnone
        rw [htl] at hnone
        exact absurd hnone (by simp)
      · simpa using h.symm

/-- Helper: `createActivityLog` only touches the `activityLog` table and
its counter. -/
theorem createActivityLog_frame (db : DB) (a : InsertActivityLog) :
    (createActivityLog db a).1.users = db.users ∧
    (createActivityLog db a).1.products = db.products ∧
    (createActivityLog db a).1.picos = db.picos ∧
    (createActivityLog db a).1.paletizadoStock = db.paletizadoStock := by
  simp [createActivityLog]

/-- C1: a POST /api/picos whose productCode resolves to a product with
`unitsPerBase = u`, with non-negative integer `bases = b` and
`looseUnits = l`, persists and returns a pico with
`totalUnits = b * u + l`; and a PUT /api/picos/:id on an existing pico
recomputes `totalUnits` as `bases * unitsPerBase + looseUnits` of that
pico's product, both in the returned and in the stored row. -/
theorem pico_totalUnits_recomputed :
    (∀ (db : DB) (body : PicoPostBody) (product : Product) (db' : DB) (pico : Pico),
       getProductByCode db body.productCode = some product →
       0 ≤ body.bases → 0 ≤ body.looseUnits →
       postPicos db body = (db', PicoPostResp.ok pico) →
       pico.totalUnits = body.bases * product.unitsPerBase + body.looseUnits ∧
       pico ∈ db'.picos)
  ∧ (∀ (db : DB) (id : Nat) (body : PicoPutBody) (db' : DB) (p : Option Pico)
       (pw : PicoWithProduct),
       getPico db id = some pw →
       putPicos db id body = (db', PicoPutResp.ok p) →
       (∀ rp, p = some rp →
          rp.totalUnits = body.bases * pw.product.unitsPerBase + body.looseUnits) ∧
       (∀ q ∈ db'.picos, q.id = id →
          q.totalUnits = body.bases * pw.product.unitsPerBase + body.looseUnits)) := by
  constructor
  · intro db body product db' pico hprod _hb _hl hrun
    unfold postPicos postPicosRun at hrun
    rw [hprod] at hrun
    simp only at hrun
    cases hparse : insertPicoSchemaParse
        { productId := product.id, bases := body.bases,
          looseUnits := body.looseUnits,
          totalUnits := body.bases * product.unitsPerBase + body.looseUnits,
          towerLocation := body.towerLocation } with
    | none => rw [hparse] at hrun; simp at hrun
    | some picoData =>
      rw [hparse] at hrun
      simp only at hrun
      have hdata : picoData =
          { productId := product.id, bases := body.bases,
            looseUnits := body.looseUnits,
            totalUnits := body.bases * product.unitsPerBase + body.looseUnits,
            towerLocation := body.towerLocation } := by
        unfold insertPicoSchemaParse at hparse
        split at hparse
        · exact (Option.some.injEq _ _ ▸ hparse).symm
        · exact absurd hparse (by simp)
      cases hcre : createPico db picoData with
      | none => rw [hcre] at hrun; simp at hrun
      | some res =>
        obtain ⟨db1, pico1⟩ := res
        rw [hcre] at hrun
        have hlog := createActivityLog_frame db1
          { type := ActivityType.entry, productCode := product.code,
            productDescription := product.description,
            quantity := body.bases * product.unitsPerBase + body.looseUnits,
            category := product.category }
        simp only [Bool.false_eq_true, if_false, Prod.mk.injEq] at hrun
        obtain ⟨hdb', hpico⟩ := hrun
        have hspec := createPico_spec hcre
        subst hdb'
        cases hpico
        refine ⟨?_, ?_⟩
        · rw [hspec.1, hdata]
        · rw [hlog.2.2.1]
          exact hspec.2
  · intro db id body db' p pw hget hrun
    unfold putPicos at hrun
    rw [hget] at hrun
    simp only at hrun
    set updates : PicoUpdates :=
      { bases := body.bases, looseUnits := body.looseUnits,
        totalUnits := body.bases * pw.product.unitsPerBase + body.looseUnits,
        towerLocation :=
          match body.towerLocation with
          | some t => if t.isEmpty then none else some t
          | none => none } with hupdates
    cases hupd : updatePico db id updates with
    | none => rw [hupd] at hrun; simp at hrun
    | some res =>
      obtain ⟨db1, pico1⟩ := res
      rw [hupd] at hrun
      simp only [Prod.mk.injEq, PicoPutResp.ok.injEq] at hrun
      obtain ⟨hdb', hp⟩ := hrun
      subst hdb'
      rw [← hp]
      obtain ⟨u2, hb2, hl2, ht2, _, hr2⟩ := updatePico_some hupd
      have hdb1 : db1 = (updatePicoApply db id u2).1 := congrArg Prod.fst hr2
      have hpico1 : pico1 = (updatePicoApply db id u2).2 := congrArg Prod.snd hr2
      constructor
      · intro rp hrp
        rw [hpico1] at hrp
        simp only [updatePicoApply] at hrp
        obtain ⟨q, _hfind, hq⟩ := Option.map_eq_some'.mp hrp
        rw [← hq]
        simp [applyPicoUpdates, ht2, hupdates]
      · intro q hq hqid
        rw [hdb1] at hq
        simp only [updatePicoApply] at hq
        obtain ⟨orig, _hmem, horig⟩ := List.mem_map.mp hq
        by_cases hid : orig.id = id
        · rw [if_pos (by simpa using hid)] at horig
          rw [← horig]
          simp [applyPicoUpdates, ht2, hupdates]
        · rw [if_neg (by simpa using hid)] at horig
          rw [← horig] at hqid
          exact absurd hqid hid

/-- POST body of the C1 witness (the worked example of the spec). -/
def c1PostBody : PicoPostBody :=
  { productCode := "P1", bases := 2, looseUnits := 3, towerLocation := "01" }

/-- The pico the C1 witness POST creates. -/
def c1PostPico : Pico :=
  { id := 1, productId := 1, bases := 2, looseUnits := 3, totalUnits := 13,
    towerLocation := "01" }

/-- PUT body of the C1 witness. -/
def c1PutBody : PicoPutBody :=
  { bases := 4, looseUnits := 1, towerLocation := none }

/-- The pico row after the C1 witness PUT. -/
def c1PutPico : Pico :=
  { id := 1, productId := 1, bases := 4, looseUnits := 1, totalUnits := 21,
    towerLocation := "07" }

/-- Witness for C1: the spec's worked example, `totalUnits = 2*5+3 = 13`
on create and `4*5+1 = 21` on update. -/
theorem pico_totalUnits_recomputed_witness :
    c1PostPico.totalUnits = 2 * demoProduct.unitsPerBase + 3 ∧
    c1PostPico ∈ (postPicos demoDb c1PostBody).1.picos ∧
    c1PutPico.totalUnits = 4 * demoProduct.unitsPerBase + 1 := by
  have h1 := pico_totalUnits_recomputed.1 demoDb c1PostBody demoProduct
    (postPicos demoDb c1PostBody).1 c1PostPico (by decide) (by decide)
    (by decide) (by decide)
  have h2 := pico_totalUnits_recomputed.2 demoDbWithPico 1 c1PutBody
    (putPicos demoDbWithPico 1 c1PutBody).1 (some c1PutPico)
    ⟨demoPico, demoProduct⟩ (by decide) (by decide)
  exact ⟨h1.1, h1.2, h2.1 c1PutPico rfl⟩

/-- The application-level invariant: at most one `paletizado_stock` row per
product. -/
def uniqueStockPerProduct (l : List PaletizadoStock) : Prop :=
  l.Pairwise (fun a b => a.productId ≠ b.productId)

/-- Helper: when the stock lookup by product id answers `none` and the
product row itself exists, no stock row for that product is stored (the
left join cannot be the reason, since the product is present). -/
theorem stockByProduct_none_no_row {db : DB} {product : Product}
    (hmem : product ∈ db.products)
    (h : getPaletizadoStockByProductId db product.id = none) :
    ∀ s ∈ db.paletizadoStock, s.productId ≠ product.id := by
  intro s hs hcontra
  unfold getPaletizadoStockByProductId at h
  cases hfind : db.paletizadoStock.find? (fun t => t.productId == product.id) with
  | none =>
    have hnone := List.find?_eq_none.mp hfind s hs
    simp only [beq_iff_eq] at hnone
    exact hnone hcontra
  | some t =>
    rw [hfind] at h
    simp only at h
    have ht : t.productId = product.id := by
      have := List.find?_some hfind
      simpa using this
    cases hpf : db.products.find? (fun pr => pr.id == t.productId) with
    | none =>
      have hacc := List.find?_eq_none.mp hpf product hmem
      simp only [beq_iff_eq] at hacc
      exact hacc ht.symm
    | some pr =>
      rw [hpf] at h
      simp at h

/-- C2: under sequential execution, POST /api/paletizado-stock preserves
the one-row-per-product invariant; when a stock row for the resolved
product already exists with quantity `q`, that same row is updated to
`q + d` and no row is inserted; only when no row exists is a new row
inserted. -/
theorem paletizado_stock_upsert :
    (∀ (db : DB) (body : StockPostBody) (db' : DB) (resp : StockPostResp),
       postPaletizadoStock db body = (db', resp) →
       uniqueStockPerProduct db.paletizadoStock →
       uniqueStockPerProduct db'.paletizadoStock)
  ∧ (∀ (db : DB) (body : StockPostBody) (product : Product)
       (es : PaletizadoStockWithProduct) (db' : DB) (resp : StockPostResp),
       getProductByCode db body.productCode = some product →
       getPaletizadoStockByProductId db product.id = some es →
       postPaletizadoStock db body = (db', resp) →
       db'.paletizadoStock = db.paletizadoStock.map
         (fun s => if s.id == es.stock.id
                   then { s with quantity := es.stock.quantity + body.quantity }
                   else s) ∧
       db'.paletizadoStock.length = db.paletizadoStock.length)
  ∧ (∀ (db : DB) (body : StockPostBody) (product : Product) (db' : DB)
       (resp : StockPostResp),
       getProductByCode db body.productCode = some product →
       getPaletizadoStockByProductId db product.id = none →
       postPaletizadoStock db body = (db', resp) →
       db'.paletizadoStock = db.paletizadoStock ++
         [{ id := db.nextStockId, productId := product.id,
            quantity := body.quantity }]) := by
  refine ⟨?_, ?_, ?_⟩
  · intro db body db' resp hrun huniq
    unfold postPaletizadoStock postPaletizadoStockRun at hrun
    cases hprod : getProductByCode db body.productCode with
    | none =>
      rw [hprod] at hrun
      simp only [Prod.mk.injEq] at hrun
      rw [← hrun.1]
      exact huniq
    | some product =>
      rw [hprod] at hrun
      simp only at hrun
      cases hes : getPaletizadoStockByProductId db product.id with
      | some es =>
        rw [hes] at hrun
        simp only [Bool.false_eq_true, if_false, Prod.mk.injEq] at hrun
        rw [← hrun.1]
        unfold uniqueStockPerProduct at huniq ⊢
        unfold createActivityLog updatePaletizadoStock
        simp only [List.pairwise_map]
        refine huniq.imp ?_
        intro a b hab
        by_cases ha : a.id == es.stock.id <;> by_cases hb : b.id == es.stock.id <;>
          simp [ha, hb, hab]
      | none =>
        rw [hes] at hrun
        simp only [Bool.false_eq_true, if_false, Prod.mk.injEq] at hrun
        rw [← hrun.1]
        have hpmem : product ∈ db.products :=
          List.mem_of_find?_eq_some hprod
        have hno := stockByProduct_none_no_row hpmem hes
        unfold uniqueStockPerProduct at huniq ⊢
        unfold createActivityLog createPaletizadoStock
        simp only [List.pairwise_append, List.pairwise_cons]
        refine ⟨huniq, by simp, ?_⟩
        intro a ha b hb
        simp only [List.mem_singleton] at hb
        subst hb
        simpa using hno a ha
  · intro db body product es db' resp hprod hes hrun
    unfold postPaletizadoStock postPaletizadoStockRun at hrun
    rw [hprod] at hrun
    simp only at hrun
    rw [hes] at hrun
    simp only [Bool.false_eq_true, if_false, Prod.mk.injEq] at hrun
    rw [← hrun.1]
    constructor
    · rfl
    · simp [createActivityLog, updatePaletizadoStock]
  · intro db body product db' resp hprod hes hrun
    unfold postPaletizadoStock postPaletizadoStockRun at hrun
    rw [hprod] at hrun
    simp only at hrun
    rw [hes] at hrun
    simp only [Bool.false_eq_true, if_false, Prod.mk.injEq] at hrun
    rw [← hrun.1]
    rfl

/-- A sample stock row of `demoProduct`. -/
def demoStock : PaletizadoStock := { id := 1, productId := 1, quantity := 10 }

/-- `demoDb` with `demoStock` stored. -/
def demoDbWithStock : DB :=
  { demoDb with paletizadoStock := [demoStock], nextStockId := 2 }

/-- Stock POST body of the C2 witness. -/
def c2Body : StockPostBody := { productCode := "P1", quantity := 4 }

/-- Witness for C2: posting quantity 4 onto existing quantity 10 keeps a
single row (updated to 14), and posting to a product without a row
inserts exactly one. -/
theorem paletizado_stock_upsert_witness :
    uniqueStockPerProduct
      (postPaletizadoStock demoDbWithStock c2Body).1.paletizadoStock ∧
    (postPaletizadoStock demoDbWithStock c2Body).1.paletizadoStock =
      [{ id := 1, productId := 1, quantity := 14 }] ∧
    (postPaletizadoStock demoDb c2Body).1.paletizadoStock =
      [{ id := 1, productId := 1, quantity := 4 }] := by
  have h1 := paletizado_stock_upsert.1 demoDbWithStock c2Body
    (postPaletizadoStock demoDbWithStock c2Body).1
    (postPaletizadoStock demoDbWithStock c2Body).2 rfl
    (by simp [uniqueStockPerProduct, demoDbWithStock, demoDb, emptyDb])
  have h2 := paletizado_stock_upsert.2.1 demoDbWithStock c2Body demoProduct
    ⟨demoStock, demoProduct⟩
    (postPaletizadoStock demoDbWithStock c2Body).1
    (postPaletizadoStock demoDbWithStock c2Body).2
    (by decide) (by decide) rfl
  have h3 := paletizado_stock_upsert.2.2 demoDb c2Body demoProduct
    (postPaletizadoStock demoDb c2Body).1
    (postPaletizadoStock demoDb c2Body).2
    (by decide) (by decide) rfl
  exact ⟨h1, h2.1.trans (by decide), h3.trans (by decide)⟩

/-- PUT body with the one-digit tower location of the C3 counterexample. -/
def c3PutBody : PicoPutBody :=
  { bases := 1, looseUnits := 2, towerLocation := some "1" }

/-- C3 counterexample: a PUT /api/picos/1 with towerLocation "1" is not
rejected — it answers 200 and stores towerLocation "1", which does not
match the two-digit pattern, refuting the claim for PUT. -/
theorem towerLocation_two_digits_counterexample :
    (putPicos demoDbWithPico 1 c3PutBody).2 =
      PicoPutResp.ok (some { id := 1, productId := 1, bases := 1,
                             looseUnits := 2, totalUnits := 7,
                             towerLocation := "1" }) ∧
    ({ id := 1, productId := 1, bases := 1, looseUnits := 2, totalUnits := 7,
       towerLocation := "1" } : Pico) ∈
      (putPicos demoDbWithPico 1 c3PutBody).1.picos ∧
    isTwoDigits "1" = false := by decide

/-- C3 amended: POST /api/picos validates towerLocation against the
two-digit pattern (rejecting "1", "abc", "123" with 400 and persisting
nothing, whenever the product resolves); PUT /api/picos/:id applies no
pattern validation — a truthy towerLocation only passes through the
`varchar(2)` column, which raises (a 400, persisting nothing) exactly
when the value is longer than two characters with a non-space among the
excess (so for "abc" and "123"), silently truncates a longer value whose
excess is all spaces ("12 " is stored as "12"), and stores a value of at
most two characters as is ("1" is stored). -/
theorem towerLocation_two_digits_amended :
    (∀ (db : DB) (body : PicoPostBody) (product : Product),
       getProductByCode db body.productCode = some product →
       isTwoDigits body.towerLocation = false →
       postPicos db body = (db, PicoPostResp.invalidData))
  ∧ (isTwoDigits "1" = false ∧ isTwoDigits "abc" = false ∧
     isTwoDigits "123" = false ∧
     varcharStore 2 "abc" = none ∧ varcharStore 2 "123" = none ∧
     varcharStore 2 "1" = some "1" ∧ varcharStore 2 "12 " = some "12")
  ∧ (∀ (db : DB) (id : Nat) (body : PicoPutBody) (t : String)
       (pw : PicoWithProduct),
       getPico db id = some pw →
       body.towerLocation = some t → t ≠ "" →
       varcharStore 2 t = none →
       putPicos db id body = (db, PicoPutResp.updateFailed))
  ∧ (∀ (db : DB) (id : Nat) (body : PicoPutBody) (t t2 : String)
       (pw : PicoWithProduct),
       getPico db id = some pw →
       body.towerLocation = some t → t ≠ "" →
       varcharStore 2 t = some t2 →
       (∃ p, (putPicos db id body).2 = PicoPutResp.ok p) ∧
       ∀ q ∈ (putPicos db id body).1.picos, q.id = id →
         q.towerLocation = t2) := by
  refine ⟨?_, by decide, ?_, ?_⟩
  · intro db body product hprod hbad
    unfold postPicos postPicosRun
    rw [hprod]
    simp only
    unfold insertPicoSchemaParse
    rw [if_neg (by simp [hbad])]
  · intro db id body t pw hget ht htne hvc
    unfold putPicos
    rw [hget]
    simp only
    rw [ht]
    simp only
    have hts : (if t.isEmpty = true then (none : Option String) else some t)
        = some t := by
      simp [String.isEmpty_iff, htne]
    rw [hts]
    unfold updatePico
    simp only
    rw [hvc]
  · intro db id body t t2 pw hget ht htne hvc
    unfold putPicos
    rw [hget]
    simp only
    rw [ht]
    simp only
    have hts : (if t.isEmpty = true then (none : Option String) else some t)
        = some t := by
      simp [String.isEmpty_iff, htne]
    rw [hts]
    unfold updatePico
    simp only
    rw [hvc]
    simp only [updatePicoApply]
    refine ⟨⟨_, rfl⟩, ?_⟩
    intro q hq hqid
    obtain ⟨orig, _hmem, horig⟩ := List.mem_map.mp hq
    by_cases hid : orig.id = id
    · rw [if_pos (by simpa using hid)] at horig
      rw [← horig]
      simp [applyPicoUpdates]
    · rw [if_neg (by simpa using hid)] at horig
      rw [← horig] at hqid
      exact absurd hqid hid

/-- Witness for the amended C3: "abc" rejected on POST, "123" rejected on
PUT by the column raise, "1" stored by PUT, and "12 " truncated to "12"
by PUT. -/
theorem towerLocation_two_digits_amended_witness :
    postPicos demoDb
        { productCode := "P1", bases := 1, looseUnits := 0,
          towerLocation := "abc" } = (demoDb, PicoPostResp.invalidData) ∧
    putPicos demoDbWithPico 1
        { bases := 1, looseUnits := 2, towerLocation := some "123" }
      = (demoDbWithPico, PicoPutResp.updateFailed) ∧
    (∀ q ∈ (putPicos demoDbWithPico 1 c3PutBody).1.picos, q.id = 1 →
       q.towerLocation = "1") ∧
    (∀ q ∈ (putPicos demoDbWithPico 1
        { bases := 1, looseUnits := 2,
          towerLocation := some "12 " }).1.picos, q.id = 1 →
       q.towerLocation = "12") := by
  refine ⟨?_, ?_, ?_, ?_⟩
  · exact towerLocation_two_digits_amended.1 demoDb _ demoProduct
      (by decide) (by decide)
  · exact towerLocation_two_digits_amended.2.2.1 demoDbWithPico 1 _ "123"
      ⟨demoPico, demoProduct⟩ (by decide) rfl (by decide) (by decide)
  · exact (towerLocation_two_digits_amended.2.2.2 demoDbWithPico 1 c3PutBody
      "1" "1" ⟨demoPico, demoProduct⟩ (by decide) rfl (by decide)
      (by decide)).2
  · exact (towerLocation_two_digits_amended.2.2.2 demoDbWithPico 1
      { bases := 1, looseUnits := 2, towerLocation := some "12 " }
      "12 " "12" ⟨demoPico, demoProduct⟩ (by decide) rfl (by decide)
      (by decide)).2

/-- C4 counterexample: the login body `{username: "", password: "x"}` has
a username matching no stored user, yet the handler answers the 400 of
`loginSchema.parse` (`invalidData`), not the claimed 401
(`invalidCredentials`). -/
theorem login_failure_counterexample :
    getUserByUsername demoDb "" = none ∧
    postLogin demoDb emptySession { username := "", password := "x" }
      = (emptySession, LoginResp.invalidData) ∧
    LoginResp.invalidData ≠ LoginResp.invalidCredentials := by decide

/-- C4 amended: a login body failing `loginSchema.parse` (an empty
username or password) answers 400 before any lookup, leaving the session
untouched; a parse-passing login whose username matches no stored user,
or whose bcrypt comparison against the stored hash fails, answers 401 and
leaves the session untouched — in either case a fresh (unauthenticated)
session still gets 401 from GET /api/auth/user — while a successful login
stores the user's id and record in the session. -/
theorem login_failure_no_session :
    (∀ (db : DB) (sess : Session) (body : LoginBody),
       loginSchemaParse body = some body →
       (getUserByUsername db body.username = none ∨
        ∃ u, getUserByUsername db body.username = some u ∧
             bcryptCompare body.password u.password = false) →
       postLogin db sess body = (sess, LoginResp.invalidCredentials) ∧
       (sess.userId = none → getAuthUser db sess = AuthUserResp.unauthorized))
  ∧ (∀ (db : DB) (sess : Session) (body : LoginBody) (u : User),
       loginSchemaParse body = some body →
       getUserByUsername db body.username = some u →
       bcryptCompare body.password u.password = true →
       (postLogin db sess body).1.userId = some u.id ∧
       (postLogin db sess body).1.user = some u)
  ∧ (∀ (db : DB) (sess : Session) (body : LoginBody),
       loginSchemaParse body = none →
       postLogin db sess body = (sess, LoginResp.invalidData) ∧
       (sess.userId = none → getAuthUser db sess = AuthUserResp.unauthorized)) := by
  refine ⟨?_, ?_, ?_⟩
  · intro db sess body hparse hfail
    constructor
    · unfold postLogin
      rw [hparse]
      simp only
      rcases hfail with hnone | ⟨u, hu, hcmp⟩
      · rw [hnone]
      · rw [hu]
        simp only
        rw [hcmp]
        simp
    · intro hnone
      unfold getAuthUser
      rw [hnone]
  · intro db sess body u hparse hu hcmp
    unfold postLogin
    rw [hparse]
    simp only
    rw [hu]
    simp [hcmp]
  · intro db sess body hparse
    constructor
    · unfold postLogin
      rw [hparse]
    · intro hnone
      unfold getAuthUser
      rw [hnone]

/-- Witness for the amended C4: wrong password on "admin" answers 401 and
the fresh session still gets 401 from /api/auth/user; an empty username
answers 400; the right password stores the admin's id in the session. -/
theorem login_failure_no_session_witness :
    postLogin demoDb emptySession { username := "admin", password := "wrong" }
      = (emptySession, LoginResp.invalidCredentials) ∧
    getAuthUser demoDb emptySession = AuthUserResp.unauthorized ∧
    postLogin demoDb emptySession { username := "", password := "x" }
      = (emptySession, LoginResp.invalidData) ∧
    (postLogin demoDb emptySession
      { username := "admin", password := "admin" }).1.userId = some 1 := by
  have h1 := login_failure_no_session.1 demoDb emptySession
    ⟨"admin", "wrong"⟩ (by decide) (Or.inr ⟨demoAdmin, by decide, by decide⟩)
  have h2 := login_failure_no_session.2.1 demoDb emptySession
    ⟨"admin", "admin"⟩ demoAdmin (by decide) (by decide) (by decide)
  have h3 := login_failure_no_session.2.2 demoDb emptySession
    ⟨"", "x"⟩ (by decide)
  exact ⟨h1.1, h1.2 rfl, h3.1, h2.1⟩

/-- Helper: the serialized `{...user, password: undefined}` payload has no
"password" property. -/
theorem serializeUser_no_password (u : User) :
    "password" ∉ (serializeUser u).map Prod.fst := by
  simp [serializeUser, jsonStringifyObj, objSet, userObj, roleToJson]

/-- Helper: both outcomes of the update step of PUT /api/users/:id answer
a payload without a "password" property. -/
theorem putUsersInner_no_password {db : DB} {id : Nat} {up : UserUpdates}
    {db' : DB} {obj : List (String × Json)}
    (h : (match (updateUser db id up).2 with
          | some user =>
            ((updateUser db id up).1, UserWriteResp.ok (serializeUser user))
          | none =>
            ((updateUser db id up).1,
             UserWriteResp.ok (jsonStringifyObj [("password", Json.undef)])))
        = (db', UserWriteResp.ok obj)) :
    "password" ∉ obj.map Prod.fst := by
  cases hu : (updateUser db id up).2 with
  | some user =>
    rw [hu] at h
    simp only [Prod.mk.injEq, UserWriteResp.ok.injEq] at h
    rw [← h.2]
    exact serializeUser_no_password user
  | none =>
    rw [hu] at h
    simp only [Prod.mk.injEq, UserWriteResp.ok.injEq] at h
    rw [← h.2]
    simp [jsonStringifyObj]

/-- C5: none of the five user-returning endpoints — POST /api/auth/login,
GET /api/auth/user, GET /api/users, POST /api/users, PUT /api/users/:id —
ever includes a "password" property in a serialized user payload, for
every stored user and every request. -/
theorem user_payloads_no_password :
    (∀ (db : DB) (sess : Session) (body : LoginBody) (sess' : Session)
       (obj : List (String × Json)) (fl : Bool),
       postLogin db sess body = (sess', LoginResp.ok obj fl) →
       "password" ∉ obj.map Prod.fst)
  ∧ (∀ (db : DB) (sess : Session) (obj : List (String × Json)),
       getAuthUser db sess = AuthUserResp.ok obj →
       "password" ∉ obj.map Prod.fst)
  ∧ (∀ (db : DB) (sess : Session) (objs : List (List (String × Json))),
       getUsersHandler db sess = UsersListResp.ok objs →
       ∀ obj ∈ objs, "password" ∉ obj.map Prod.fst)
  ∧ (∀ (db : DB) (sess : Session) (body : InsertUser) (db' : DB)
       (obj : List (String × Json)),
       postUsersHandler db sess body = (db', UserWriteResp.ok obj) →
       "password" ∉ obj.map Prod.fst)
  ∧ (∀ (db : DB) (sess : Session) (id : Nat) (body : UserUpdates) (db' : DB)
       (obj : List (String × Json)),
       putUsersHandler db sess id body = (db', UserWriteResp.ok obj) →
       "password" ∉ obj.map Prod.fst) := by
  refine ⟨?_, ?_, ?_, ?_, ?_⟩
  · intro db sess body sess' obj fl hrun
    unfold postLogin at hrun
    split at hrun
    · simp at hrun
    · split at hrun
      · simp at hrun
      · split at hrun
        · simp only [Prod.mk.injEq, LoginResp.ok.injEq] at hrun
          rw [← hrun.2.1]
          exact serializeUser_no_password _
        · simp at hrun
  · intro db sess obj hrun
    unfold getAuthUser at hrun
    split at hrun
    · simp at hrun
    · split at hrun
      · simp at hrun
      · simp only [AuthUserResp.ok.injEq] at hrun
        rw [← hrun]
        exact serializeUser_no_password _
  · intro db sess objs hrun obj hobj
    unfold getUsersHandler at hrun
    split at hrun
    · simp at hrun
    · split at hrun
      · simp only [UsersListResp.ok.injEq] at hrun
        rw [← hrun] at hobj
        obtain ⟨u, _, hu⟩ := List.mem_map.mp hobj
        rw [← hu]
        exact serializeUser_no_password u
      · simp at hrun
  · intro db sess body db' obj hrun
    unfold postUsersHandler at hrun
    split at hrun
    · simp at hrun
    · split at hrun
      · simp only at hrun
        split at hrun
        · simp at hrun
        · simp only [Prod.mk.injEq, UserWriteResp.ok.injEq] at hrun
          rw [← hrun.2]
          exact serializeUser_no_password _
      · simp at hrun
  · intro db sess id body db' obj hrun
    unfold putUsersHandler at hrun
    split at hrun
    · simp at hrun
    · split at hrun
      · exact putUsersInner_no_password hrun
      · simp at hrun

/-- Witness for C5: the admin payload of GET /api/auth/user on an
authenticated session carries no "password" property. -/
theorem user_payloads_no_password_witness :
    "password" ∉ (serializeUser demoAdmin).map Prod.fst := by
  exact user_payloads_no_password.2.1 demoDb
    { userId := some 1, user := some demoAdmin } (serializeUser demoAdmin)
    (by decide)

/-- C7: DELETE /api/picos/:id on an id with no matching pico answers 404
and leaves every table unchanged; on an existing pico (whose product
exists — the `picos.product_id` column carries a foreign-key reference to
`products.id`, so a stored pico always has its product) it deletes exactly
that row and appends exactly one "exit" activity-log row whose quantity
and product fields are captured from the joined row before the delete. -/
theorem delete_pico_exit_log :
    (∀ (db : DB) (id : Nat),
       (∀ q ∈ db.picos, q.id ≠ id) →
       deletePicos db id = (db, PicoDeleteResp.picoNotFound))
  ∧ (∀ (db : DB) (id : Nat) (pw : PicoWithProduct),
       getPico db id = some pw →
       (deletePicos db id).2 = PicoDeleteResp.ok ∧
       (deletePicos db id).1.picos = db.picos.filter (fun q => q.id != id) ∧
       (deletePicos db id).1.activityLog =
         { id := db.nextLogId, type := ActivityType.exit,
           productCode := pw.product.code,
           productDescription := pw.product.description,
           quantity := pw.pico.totalUnits,
           category := pw.product.category } :: db.activityLog ∧
       (deletePicos db id).1.users = db.users ∧
       (deletePicos db id).1.products = db.products ∧
       (deletePicos db id).1.paletizadoStock = db.paletizadoStock)
  ∧ (∀ (db : DB) (id : Nat),
       (∀ p ∈ db.picos, ∃ pr ∈ db.products, pr.id = p.productId) →
       (∃ p ∈ db.picos, p.id = id) →
       ∃ pw, getPico db id = some pw) := by
  refine ⟨?_, ?_, ?_⟩
  · intro db id hnone
    have hfind : db.picos.find? (fun p => p.id == id) = none := by
      rw [List.find?_eq_none]
      intro q hq
      simpa using hnone q hq
    unfold deletePicos getPico
    rw [hfind]
  · intro db id pw hget
    unfold deletePicos
    rw [hget]
    simp [deletePico, createActivityLog]
  · intro db id hfk ⟨p, hp, hpid⟩
    have hfind : ∃ q, db.picos.find? (fun r => r.id == id) = some q := by
      have : (db.picos.find? (fun r => r.id == id)).isSome := by
        rw [List.find?_isSome]
        exact ⟨p, hp, by simpa using hpid⟩
      exact Option.isSome_iff_exists.mp this
    obtain ⟨q, hq⟩ := hfind
    have hqmem : q ∈ db.picos := List.mem_of_find?_eq_some hq
    obtain ⟨pr, hprmem, hprid⟩ := hfk q hqmem
    have hfindpr : ∃ pr2, db.products.find? (fun r => r.id == q.productId) = some pr2 := by
      have : (db.products.find? (fun r => r.id == q.productId)).isSome := by
        rw [List.find?_isSome]
        exact ⟨pr, hprmem, by simpa using hprid⟩
      exact Option.isSome_iff_exists.mp this
    obtain ⟨pr2, hpr2⟩ := hfindpr
    refine ⟨⟨q, pr2⟩, ?_⟩
    unfold getPico
    rw [hq]
    simp only
    rw [hpr2]

/-- Witness for C7: deleting a missing id answers 404 unchanged; deleting
the stored demo pico removes it and appends the captured "exit" row. -/
theorem delete_pico_exit_log_witness :
    deletePicos demoDbWithPico 99 = (demoDbWithPico, PicoDeleteResp.picoNotFound) ∧
    (deletePicos demoDbWithPico 1).1.picos = [] ∧
    (deletePicos demoDbWithPico 1).1.activityLog =
      [{ id := 1, type := ActivityType.exit, productCode := "P1",
         productDescription := "Widget", quantity := 7,
         category := Category.alta_rotacao }] := by
  have h1 := delete_pico_exit_log.1 demoDbWithPico 99 (by decide)
  have h2 := delete_pico_exit_log.2.1 demoDbWithPico 1 ⟨demoPico, demoProduct⟩
    (by decide)
  exact ⟨h1, h2.2.1.trans (by decide), h2.2.2.1.trans (by decide)⟩

/-- C8: the primary insert and the activity-log append are two independent
writes with no transaction: there is an execution (the log insert raising,
modelled by the `logFails` parameter) in which POST /api/picos — and
likewise POST /api/paletizado-stock — answers 400 while the freshly
created primary row remains persisted. -/
theorem primary_write_log_write_not_atomic :
    (∃ (db : DB) (body : PicoPostBody) (db' : DB),
       postPicosRun true db body = (db', PicoPostResp.invalidData) ∧
       ∃ p ∈ db'.picos, p ∉ db.picos)
  ∧ (∃ (db : DB) (body : StockPostBody) (db' : DB),
       postPaletizadoStockRun true db body = (db', StockPostResp.invalidData) ∧
       ∃ s ∈ db'.paletizadoStock, s ∉ db.paletizadoStock) := by
  constructor
  · refine ⟨demoDb,
      ({ productCode := "P1", bases := 1, looseUnits := 0,
         towerLocation := "02" } : PicoPostBody),
      (postPicosRun true demoDb
        { productCode := "P1", bases := 1, looseUnits := 0,
          towerLocation := "02" }).1,
      by decide,
      ({ id := 1, productId := 1, bases := 1, looseUnits := 0,
         totalUnits := 5, towerLocation := "02" } : Pico),
      by decide, by decide⟩
  · refine ⟨demoDb, ({ productCode := "P1", quantity := 6 } : StockPostBody),
      (postPaletizadoStockRun true demoDb
        { productCode := "P1", quantity := 6 }).1,
      by decide,
      ({ id := 1, productId := 1, quantity := 6 } : PaletizadoStock),
      by decide, by decide⟩

/-- Helper: the update step of PUT /api/picos/:id, for any update payload,
leaves every other table and every pico row with a different id in
place. -/
theorem putPicosInner_frame {db : DB} {id : Nat} {u : PicoUpdates}
    {db' : DB} {resp : PicoPutResp}
    (h : (match updatePico db id u with
          | none => (db, PicoPutResp.updateFailed)
          | some (db1, pico) => (db1, PicoPutResp.ok pico)) = (db', resp)) :
    db'.users = db.users ∧ db'.products = db.products ∧
    db'.paletizadoStock = db.paletizadoStock ∧
    db'.activityLog = db.activityLog ∧
    ∀ q ∈ db.picos, q.id ≠ id → q ∈ db'.picos := by
  cases hupd : updatePico db id u with
  | none =>
    rw [hupd] at h
    simp only [Prod.mk.injEq] at h
    rw [← h.1]
    exact ⟨rfl, rfl, rfl, rfl, fun q hq _ => hq⟩
  | some res =>
    obtain ⟨db1, pico⟩ := res
    rw [hupd] at h
    simp only [Prod.mk.injEq] at h
    rw [← h.1]
    obtain ⟨u2, _, _, _, _, hr2⟩ := updatePico_some hupd
    have hdb1 : db1 = (updatePicoApply db id u2).1 := congrArg Prod.fst hr2
    rw [hdb1]
    refine ⟨rfl, rfl, rfl, rfl, ?_⟩
    intro q hq hid
    simp only [updatePicoApply, List.mem_map]
    exact ⟨q, hq, by rw [if_neg (by simpa using hid)]⟩

/-- C9: PUT /api/picos/:id never touches the users, products,
paletizado-stock or activity-log tables, nor any pico row with a different
id; and when the request's towerLocation is absent or the empty string
(falsy in JS), a successful update overwrites bases, looseUnits and the
recomputed totalUnits while leaving the stored towerLocation unchanged. -/
theorem put_pico_frame :
    (∀ (db : DB) (id : Nat) (body : PicoPutBody) (db' : DB) (resp : PicoPutResp),
       putPicos db id body = (db', resp) →
       db'.users = db.users ∧ db'.products = db.products ∧
       db'.paletizadoStock = db.paletizadoStock ∧
       db'.activityLog = db.activityLog ∧
       ∀ q ∈ db.picos, q.id ≠ id → q ∈ db'.picos)
  ∧ (∀ (db : DB) (id : Nat) (body : PicoPutBody) (db' : DB) (p : Option Pico)
       (pw : PicoWithProduct),
       (body.towerLocation = none ∨ body.towerLocation = some "") →
       getPico db id = some pw →
       putPicos db id body = (db', PicoPutResp.ok p) →
       db'.picos = db.picos.map (fun q =>
         if q.id == id then
           { q with bases := body.bases, looseUnits := body.looseUnits,
                    totalUnits := body.bases * pw.product.unitsPerBase
                                  + body.looseUnits }
         else q)) := by
  constructor
  · intro db id body db' resp hrun
    unfold putPicos at hrun
    split at hrun
    · simp only [Prod.mk.injEq] at hrun
      rw [← hrun.1]
      exact ⟨rfl, rfl, rfl, rfl, fun q hq _ => hq⟩
    · exact putPicosInner_frame hrun
  · intro db id body db' p pw htl hget hrun
    unfold putPicos at hrun
    rw [hget] at hrun
    simp only at hrun
    have htl' : (match body.towerLocation with
                 | some t => if t.isEmpty then none else some t
                 | none => none) = (none : Option String) := by
      rcases htl with h | h <;> rw [h]
      all_goals rfl
    rw [htl'] at hrun
    unfold updatePico at hrun
    simp only [updatePicoApply] at hrun
    simp only [Prod.mk.injEq] at hrun
    rw [← hrun.1]
    simp only
    refine List.map_congr_left ?_
    intro q _
    by_cases hid : q.id == id
    · rw [if_pos hid, if_pos hid]
      rfl
    · rw [if_neg hid, if_neg hid]

/-- Witness for C9: updating the demo pico with towerLocation absent
keeps "07", overwrites bases and looseUnits, and leaves every other table
untouched. -/
theorem put_pico_frame_witness :
    (putPicos demoDbWithPico 1 c1PutBody).1.activityLog =
      demoDbWithPico.activityLog ∧
    (putPicos demoDbWithPico 1 c1PutBody).1.picos = [c1PutPico] := by
  have h1 := put_pico_frame.1 demoDbWithPico 1 c1PutBody
    (putPicos demoDbWithPico 1 c1PutBody).1
    (putPicos demoDbWithPico 1 c1PutBody).2 rfl
  have h2 := put_pico_frame.2 demoDbWithPico 1 c1PutBody
    (putPicos demoDbWithPico 1 c1PutBody).1 (some c1PutPico)
    ⟨demoPico, demoProduct⟩ (Or.inl rfl) (by decide) (by decide)
  exact ⟨h1.2.2.2.1, h2.trans (by decide)⟩

/-- Helper: when no "admin" user exists, startup appends exactly the
default admin row (bcrypt hash of "admin", role administrador,
isFirstLogin true) and touches nothing else. -/
theorem initializeDefaultUser_creates {db : DB}
    (h : getUserByUsername db "admin" = none) :
    (initializeDefaultUser db).users = db.users ++
      [{ id := db.nextUserId, name := "Administrador", nickname := "Admin",
         username := "admin", password := bcryptHash "admin",
         role := Role.administrador, isFirstLogin := true }] ∧
    (initializeDefaultUser db).products = db.products ∧
    (initializeDefaultUser db).picos = db.picos ∧
    (initializeDefaultUser db).paletizadoStock = db.paletizadoStock ∧
    (initializeDefaultUser db).activityLog = db.activityLog := by
  have hany : db.users.any
      (fun w => w.username == defaultAdminInsert.username) = false := by
    rw [List.any_eq_false]
    intro w hw
    have := List.find?_eq_none.mp h w hw
    simpa [defaultAdminInsert] using this
  unfold initializeDefaultUser
  rw [h]
  simp only
  unfold createUser
  rw [hany]
  simp [defaultAdminInsert]

/-- Helper: when an "admin" user already exists, startup changes
nothing. -/
theorem initializeDefaultUser_noop {db : DB} {u : User}
    (h : getUserByUsername db "admin" = some u) :
    initializeDefaultUser db = db := by
  unfold initializeDefaultUser
  rw [h]

/-- C10: at startup, when no user "admin" exists exactly one is created —
username "admin", bcrypt hash of "admin", role administrador,
isFirstLogin true — and when one exists nothing is created, so running
startup twice equals running it once (no second admin row). -/
theorem default_admin_initialization :
    (∀ db : DB, getUserByUsername db "admin" = none →
       (initializeDefaultUser db).users = db.users ++
         [{ id := db.nextUserId, name := "Administrador",
            nickname := "Admin", username := "admin",
            password := bcryptHash "admin", role := Role.administrador,
            isFirstLogin := true }])
  ∧ (∀ (db : DB) (u : User), getUserByUsername db "admin" = some u →
       initializeDefaultUser db = db)
  ∧ (∀ db : DB, initializeDefaultUser (initializeDefaultUser db)
       = initializeDefaultUser db) := by
  refine ⟨fun db h => (initializeDefaultUser_creates h).1,
          fun db u h => initializeDefaultUser_noop h, ?_⟩
  intro db
  cases h : getUserByUsername db "admin" with
  | some u =>
    rw [initializeDefaultUser_noop h, initializeDefaultUser_noop h]
  | none =>
    have husers := (initializeDefaultUser_creates h).1
    have hmem : ({ id := db.nextUserId, name := "Administrador",
                   nickname := "Admin", username := "admin",
                   password := bcryptHash "admin",
                   role := Role.administrador,
                   isFirstLogin := true } : User)
        ∈ (initializeDefaultUser db).users := by
      rw [husers]
      simp
    have hsome : ∃ u, getUserByUsername (initializeDefaultUser db) "admin"
        = some u := by
      have : (getUserByUsername (initializeDefaultUser db) "admin").isSome := by
        unfold getUserByUsername
        rw [List.find?_isSome]
        exact ⟨_, hmem, by simp⟩
      exact Option.isSome_iff_exists.mp this
    obtain ⟨u, hu⟩ := hsome
    exact initializeDefaultUser_noop hu

/-- Witness for C10: on an empty database, startup creates exactly the
default admin row; a second run creates nothing. -/
theorem default_admin_initialization_witness :
    (initializeDefaultUser emptyDb).users = [demoAdmin] ∧
    initializeDefaultUser demoDb = demoDb := by
  have h1 := default_admin_initialization.1 emptyDb (by decide)
  have h2 := default_admin_initialization.2.1 demoDb demoAdmin (by decide)
  exact ⟨h1.trans (by decide), h2⟩

end PalletFlow
